import Mathlib

/-!
Verification development for the session broker of the virtual-browser
repository (src/Backend/gateway.js).

The broker keeps four structures: a `connections` registry
(socket id -> { type, status, sessionId }), a `sessions` table
(session id -> { clientSocket, workerSocket }), the `waitingClients`
queue and the `availableWorkers` pool.  Socket ids and session ids are
modelled as natural numbers; the JavaScript `Map`s are modelled as
association lists with unique keys; `undefined`/`null` optional fields
are modelled with `Option`.  Messages emitted on sockets are recorded in
an `outputs` trace.  The `setTimeout` reclaim callbacks of the client
disconnect handler are modelled by a `pendingReclaims` list of worker-id
snapshots together with an explicit `fireReclaim` transition for the
timer's body.
-/

namespace VB

abbrev SockId := Nat
abbrev SessionId := Nat

/-- Role of a connection: the `type` field in gateway.js (`'worker'` or
`'client'`). -/
inductive Role where
  | worker
  | client
deriving DecidableEq

/-- Worker status: the `status` field in gateway.js (`'idle'` or `'busy'`). -/
inductive WStatus where
  | idle
  | busy
deriving DecidableEq

/-- Registry entry: the object stored in the `connections` map.
`status` and `sessionId` are `none` when the JavaScript field is absent
or `null`. -/
structure Conn where
  role : Role
  status : Option WStatus := none
  sessionId : Option SessionId := none
deriving DecidableEq

/-- Session table entry: gateway.js stores the two socket objects
(`clientSocket`, `workerSocket`); we record their ids. -/
structure Sess where
  clientId : SockId
  workerId : SockId
deriving DecidableEq

/-- Messages the gateway emits to individual sockets. -/
inductive Msg where
  | startSession (config : Option Nat)
  | sessionStarted (sid : SessionId)
  | waitingStatus
  | signalMsg (payload : Nat)
  | inputEvent (payload : Nat)
  | frame (payload : Nat)
  | stopSession
  | workerDisconnected
deriving DecidableEq

/-- The whole mutable state of gateway.js, plus the `outputs` trace of
emitted messages and the `pendingReclaims` bookkeeping for scheduled
`setTimeout` reclaim callbacks. -/
structure GState where
  connections : List (SockId × Conn)
  sessions : List (SessionId × Sess)
  waitingClients : List SockId
  availableWorkers : List SockId
  pendingReclaims : List SockId
  outputs : List (SockId × Msg)
deriving DecidableEq

/-- `Map.get` on an association list. -/
def mget {α : Type} (m : List (Nat × α)) (k : Nat) : Option α :=
  match m with
  | [] => none
  | (k1, v) :: rest => if k1 = k then some v else mget rest k

/-- `Map.set` on an association list: replace in place, else append
(JavaScript `Map.set` keeps the insertion position of an existing key). -/
def mset {α : Type} (m : List (Nat × α)) (k : Nat) (v : α) : List (Nat × α) :=
  match m with
  | [] => [(k, v)]
  | (k1, v1) :: rest => if k1 = k then (k, v) :: rest else (k1, v1) :: mset rest k v

/-- `Map.delete` on an association list. -/
def mdel {α : Type} (m : List (Nat × α)) (k : Nat) : List (Nat × α) :=
  match m with
  | [] => []
  | (k1, v1) :: rest => if k1 = k then rest else (k1, v1) :: mdel rest k

/-- Update the registry entry of `id` in place (used for the field
assignments `connections.get(id).f = v` in gateway.js, which are always
guarded by a presence check at their call sites). -/
def updConn (st : GState) (id : SockId) (f : Conn → Conn) : GState :=
  match mget st.connections id with
  | some c => { st with connections := mset st.connections id (f c) }
  | none => st

/-- The `if (!connections.has(id)) connections.set(id, { type: 'client' })`
pattern of gateway.js (register-client handler, auto-registration in
request-session, and the client safety check of matchClientWithWorker). -/
def ensureClient (cid : SockId) (st : GState) : GState :=
  if (mget st.connections cid).isSome then st
  else { st with connections := mset st.connections cid { role := Role.client } }

/-- Commit part of `matchClientWithWorker` (gateway.js lines 182-194):
set `sessionId` on both peers, mark the worker `busy`, insert the session
and emit `start-session` / `session-started`.  The freshly drawn random
session id is passed in as `freshSid`. -/
def commitMatch (freshSid : SessionId) (clientId workerId : SockId)
    (config : Option Nat) (st : GState) : GState :=
  let st2 := updConn st clientId (fun c => { c with sessionId := some freshSid })
  let st3 := updConn st2 workerId
    (fun c => { c with sessionId := some freshSid, status := some WStatus.busy })
  { st3 with
    sessions := mset st3.sessions freshSid { clientId := clientId, workerId := workerId },
    outputs := st3.outputs ++
      [(workerId, Msg.startSession config), (clientId, Msg.sessionStarted freshSid)] }

/-- `matchClientWithWorker(clientSocket, workerSocket, config)` of
gateway.js (lines 168-195).  Both call sites pass non-null socket
objects, so the initial `if (!clientSocket || !workerSocket) return`
guard is vacuous in the model.  If the worker's registry entry has
vanished, the function logs and returns without re-queuing the client. -/
def matchClientWithWorker (freshSid : SessionId) (clientId workerId : SockId)
    (config : Option Nat) (st : GState) : GState :=
  let st1 := ensureClient clientId st
  if (mget st1.connections workerId).isSome then
    commitMatch freshSid clientId workerId config st1
  else
    st1

/-- The `register-worker` handler (gateway.js lines 34-46): the registry
entry is overwritten unconditionally with a fresh idle one; a waiting
client is matched immediately, otherwise the worker is pushed onto the
pool. -/
def registerWorker (freshSid : SessionId) (wid : SockId) (st : GState) : GState :=
  let st1 := { st with
    connections := mset st.connections wid { role := Role.worker, status := some WStatus.idle } }
  match st1.waitingClients with
  | c :: rest => matchClientWithWorker freshSid c wid none { st1 with waitingClients := rest }
  | [] => { st1 with availableWorkers := st1.availableWorkers ++ [wid] }

/-- The `register-client` handler (gateway.js lines 48-53). -/
def registerClient (cid : SockId) (st : GState) : GState :=
  ensureClient cid st

/-- The worker-selection `while` loop of the `request-session` handler
(gateway.js lines 67-79): scan the pool from the head, shifting off
entries whose registry lookup is missing or not idle, and return the
first present-and-idle worker together with the remaining pool. -/
def takeProvider (conns : List (SockId × Conn)) : List SockId → Option SockId × List SockId
  | [] => (none, [])
  | w :: rest =>
    match mget conns w with
    | some c =>
      if c.status = some WStatus.idle then (some w, rest)
      else takeProvider conns rest
    | none => takeProvider conns rest

/-- The `request-session` handler (gateway.js lines 56-88). -/
def requestSession (freshSid : SessionId) (cid : SockId) (config : Option Nat)
    (st : GState) : GState :=
  let st1 := ensureClient cid st
  match takeProvider st1.connections st1.availableWorkers with
  | (some w, rest) =>
    matchClientWithWorker freshSid cid w config { st1 with availableWorkers := rest }
  | (none, rest) =>
    { st1 with
      availableWorkers := rest,
      outputs := st1.outputs ++ [(cid, Msg.waitingStatus)],
      waitingClients := st1.waitingClients ++ [cid] }

/-- The `signal` relay handler (gateway.js lines 91-103). -/
def handleSignal (sid : SockId) (payload : Nat) (st : GState) : GState :=
  match mget st.connections sid with
  | none => st
  | some conn =>
    match conn.sessionId with
    | none => st
    | some sessId =>
      match mget st.sessions sessId with
      | none => st
      | some sess =>
        let target := if conn.role = Role.client then sess.workerId else sess.clientId
        { st with outputs := st.outputs ++ [(target, Msg.signalMsg payload)] }

/-- The `browser-event` relay handler (gateway.js lines 106-121). -/
def handleBrowserEvent (sid : SockId) (payload : Nat) (st : GState) : GState :=
  match mget st.connections sid with
  | none => st
  | some conn =>
    match conn.sessionId with
    | none => st
    | some sessId =>
      match mget st.sessions sessId with
      | none => st
      | some sess =>
        if conn.role = Role.client then
          { st with outputs := st.outputs ++ [(sess.workerId, Msg.inputEvent payload)] }
        else
          { st with outputs := st.outputs ++ [(sess.clientId, Msg.frame payload)] }

/-- The `disconnect` handler (gateway.js lines 123-165).  On a bound
client's departure the worker id captured by the `setTimeout` closure is
appended to `pendingReclaims`; the timer body itself is `fireReclaim`. -/
def handleDisconnect (sid : SockId) (st : GState) : GState :=
  match mget st.connections sid with
  | none => st
  | some conn =>
    if conn.role = Role.worker then
      let st1 := { st with availableWorkers := st.availableWorkers.erase sid }
      let st2 :=
        match conn.sessionId with
        | some sessId =>
          let stN :=
            match mget st1.sessions sessId with
            | some sess =>
              { st1 with outputs := st1.outputs ++ [(sess.clientId, Msg.workerDisconnected)] }
            | none => st1
          { stN with sessions := mdel stN.sessions sessId }
        | none => st1
      { st2 with connections := mdel st2.connections sid }
    else
      let st1 :=
        match conn.sessionId with
        | some sessId =>
          let stN :=
            match mget st.sessions sessId with
            | some sess =>
              { st with
                outputs := st.outputs ++ [(sess.workerId, Msg.stopSession)],
                pendingReclaims := st.pendingReclaims ++ [sess.workerId] }
            | none => st
          { stN with sessions := mdel stN.sessions sessId }
        | none => st
      let st2 := { st1 with waitingClients := st1.waitingClients.erase sid }
      { st2 with connections := mdel st2.connections sid }

/-- Body of the `setTimeout` reclaim callback (gateway.js lines 149-156):
at expiry, if the worker is still registered, reset it to idle, clear its
`sessionId` and push it back onto the pool; otherwise do nothing.  The
fired timer is removed from the `pendingReclaims` bookkeeping. -/
def fireReclaim (wid : SockId) (st : GState) : GState :=
  let st1 := { st with pendingReclaims := st.pendingReclaims.erase wid }
  if (mget st1.connections wid).isSome then
    let st2 := updConn st1 wid
      (fun c => { c with status := some WStatus.idle, sessionId := none })
    { st2 with availableWorkers := st2.availableWorkers ++ [wid] }
  else st1

/-- Inbound events of the broker.  `evStopSession` models a peer emitting
`stop-session` to the gateway (the frontend's `terminateSession` does
this); gateway.js registers no handler for that event name, so socket.io
discards it and the broker state is untouched. -/
inductive Event where
  | evRegisterWorker (freshSid : SessionId) (wid : SockId)
  | evRegisterClient (cid : SockId)
  | evRequestSession (freshSid : SessionId) (cid : SockId) (config : Option Nat)
  | evSignal (sid : SockId) (payload : Nat)
  | evBrowserEvent (sid : SockId) (payload : Nat)
  | evDisconnect (sid : SockId)
  | evReclaimTimer (wid : SockId)
  | evStopSession (sid : SockId)
deriving DecidableEq

/-- Dispatch an event to its handler, exactly as the `socket.on`
registrations of gateway.js do.  There is no registration for
`stop-session`, hence `evStopSession` is a no-op. -/
def step (e : Event) (st : GState) : GState :=
  match e with
  | .evRegisterWorker s w => registerWorker s w st
  | .evRegisterClient c => registerClient c st
  | .evRequestSession s c cfg => requestSession s c cfg st
  | .evSignal s p => handleSignal s p st
  | .evBrowserEvent s p => handleBrowserEvent s p st
  | .evDisconnect s => handleDisconnect s st
  | .evReclaimTimer w => fireReclaim w st
  | .evStopSession _ => st

/-- Run a sequence of events from a state. -/
def run (es : List Event) (st : GState) : GState :=
  es.foldl (fun s e => step e s) st

/-- The broker's start state: all four structures empty. -/
def initState : GState := ⟨[], [], [], [], [], []⟩

/-- Number of live session-table entries an id appears in. -/
def liveCount (st : GState) (id : SockId) : Nat :=
  (st.sessions.filter (fun q => q.2.clientId == id || q.2.workerId == id)).length

/-- The spec's registry/session invariant: every connection's `sessionId`
is set iff the connection's id appears in exactly one live session-table
entry. -/
def sessionInvariant (st : GState) : Prop :=
  ∀ p ∈ st.connections, (p.2.sessionId.isSome = true ↔ liveCount st p.1 = 1)

/-- An id is a present-and-idle worker for a given registry (the
condition under which the `request-session` scan accepts a pool entry). -/
def isIdleEntry (conns : List (SockId × Conn)) (w : SockId) : Bool :=
  match mget conns w with
  | some c => decide (c.status = some WStatus.idle)
  | none => false

instance (st : GState) : Decidable (sessionInvariant st) := by
  unfold sessionInvariant
  infer_instance

/-! ### Association-list lemmas -/

theorem mget_mset_self {α : Type} (m : List (Nat × α)) (k : Nat) (v : α) :
    mget (mset m k v) k = some v := by
  induction m with
  | nil => simp [mset, mget]
  | cons hd tl ih =>
    obtain ⟨k1, v1⟩ := hd
    by_cases h : k1 = k
    · simp [mset, h, mget]
    · simp [mset, h, mget, ih]

theorem mget_mset_ne {α : Type} (m : List (Nat × α)) (k x : Nat) (v : α)
    (h : x ≠ k) : mget (mset m k v) x = mget m x := by
  have hk : ¬ (k = x) := fun hk => h hk.symm
  induction m with
  | nil => simp [mset, mget, hk]
  | cons hd tl ih =>
    obtain ⟨k1, v1⟩ := hd
    by_cases h1 : k1 = k
    · simp [mset, h1, mget, hk]
    · by_cases h2 : k1 = x
      · simp [mset, h1, mget, h2, h]
      · simp [mset, h1, mget, h2, ih]

theorem mget_mdel_ne {α : Type} (m : List (Nat × α)) (k x : Nat)
    (h : x ≠ k) : mget (mdel m k) x = mget m x := by
  have hk : ¬ (k = x) := fun hk => h hk.symm
  induction m with
  | nil => simp [mdel, mget]
  | cons hd tl ih =>
    obtain ⟨k1, v1⟩ := hd
    by_cases h1 : k1 = k
    · simp [mdel, h1, mget, hk]
    · by_cases h2 : k1 = x
      · simp [mdel, h1, mget, h2, h]
      · simp [mdel, h1, mget, h2, ih]

theorem mget_eq_none_of_not_mem {α : Type} (m : List (Nat × α)) (k : Nat)
    (h : k ∉ m.map Prod.fst) : mget m k = none := by
  induction m with
  | nil => simp [mget]
  | cons hd tl ih =>
    obtain ⟨k1, v1⟩ := hd
    simp only [List.map_cons, List.mem_cons, not_or] at h
    have hk : ¬ (k1 = k) := fun hk => h.1 hk.symm
    simp [mget, hk, ih h.2]

theorem mget_mdel_self {α : Type} (m : List (Nat × α)) (k : Nat)
    (h : (m.map Prod.fst).Nodup) : mget (mdel m k) k = none := by
  induction m with
  | nil => simp [mdel, mget]
  | cons hd tl ih =>
    obtain ⟨k1, v1⟩ := hd
    simp only [List.map_cons, List.nodup_cons] at h
    by_cases h1 : k1 = k
    · simp only [mdel, h1, if_pos rfl]
      exact mget_eq_none_of_not_mem tl k (h1 ▸ h.1)
    · simp [mdel, h1, mget, ih h.2]

/-! ### Projection lemmas for the state-updating helpers -/

theorem updConn_sessions (st : GState) (id : SockId) (f : Conn → Conn) :
    (updConn st id f).sessions = st.sessions := by
  unfold updConn
  cases mget st.connections id <;> rfl

theorem updConn_availableWorkers (st : GState) (id : SockId) (f : Conn → Conn) :
    (updConn st id f).availableWorkers = st.availableWorkers := by
  unfold updConn
  cases mget st.connections id <;> rfl

theorem updConn_waitingClients (st : GState) (id : SockId) (f : Conn → Conn) :
    (updConn st id f).waitingClients = st.waitingClients := by
  unfold updConn
  cases mget st.connections id <;> rfl

theorem updConn_pendingReclaims (st : GState) (id : SockId) (f : Conn → Conn) :
    (updConn st id f).pendingReclaims = st.pendingReclaims := by
  unfold updConn
  cases mget st.connections id <;> rfl

theorem updConn_outputs (st : GState) (id : SockId) (f : Conn → Conn) :
    (updConn st id f).outputs = st.outputs := by
  unfold updConn
  cases mget st.connections id <;> rfl

theorem mget_updConn_self (st : GState) (id : SockId) (f : Conn → Conn) (c : Conn)
    (h : mget st.connections id = some c) :
    mget (updConn st id f).connections id = some (f c) := by
  unfold updConn
  rw [h]
  exact mget_mset_self st.connections id (f c)

theorem mget_updConn_ne (st : GState) (id x : SockId) (f : Conn → Conn)
    (h : x ≠ id) : mget (updConn st id f).connections x = mget st.connections x := by
  unfold updConn
  cases hm : mget st.connections id
  · rfl
  · exact mget_mset_ne st.connections id x _ h

theorem updConn_isSome (st : GState) (id x : SockId) (f : Conn → Conn)
    (h : (mget st.connections x).isSome) :
    (mget (updConn st id f).connections x).isSome := by
  by_cases hx : x = id
  · subst hx
    obtain ⟨c, hc⟩ := Option.isSome_iff_exists.mp h
    rw [mget_updConn_self st x f c hc]
    rfl
  · rw [mget_updConn_ne st id x f hx]
    exact h

theorem ensureClient_sessions (cid : SockId) (st : GState) :
    (ensureClient cid st).sessions = st.sessions := by
  unfold ensureClient
  split <;> rfl

theorem ensureClient_availableWorkers (cid : SockId) (st : GState) :
    (ensureClient cid st).availableWorkers = st.availableWorkers := by
  unfold ensureClient
  split <;> rfl

theorem ensureClient_waitingClients (cid : SockId) (st : GState) :
    (ensureClient cid st).waitingClients = st.waitingClients := by
  unfold ensureClient
  split <;> rfl

theorem ensureClient_pendingReclaims (cid : SockId) (st : GState) :
    (ensureClient cid st).pendingReclaims = st.pendingReclaims := by
  unfold ensureClient
  split <;> rfl

theorem ensureClient_outputs (cid : SockId) (st : GState) :
    (ensureClient cid st).outputs = st.outputs := by
  unfold ensureClient
  split <;> rfl

theorem mget_ensureClient_of_isSome (cid x : SockId) (st : GState)
    (h : (mget st.connections x).isSome) :
    mget (ensureClient cid st).connections x = mget st.connections x := by
  unfold ensureClient
  by_cases hc : (mget st.connections cid).isSome
  · simp [hc]
  · have hx : x ≠ cid := by
      intro he
      exact hc (he ▸ h)
    simp [hc, mget_mset_ne st.connections cid x _ hx]

theorem ensureClient_isSome (cid x : SockId) (st : GState)
    (h : (mget st.connections x).isSome) :
    (mget (ensureClient cid st).connections x).isSome := by
  rw [mget_ensureClient_of_isSome cid x st h]
  exact h

theorem commitMatch_sessions (s : SessionId) (c w : SockId) (cfg : Option Nat)
    (st : GState) :
    (commitMatch s c w cfg st).sessions =
      mset st.sessions s { clientId := c, workerId := w } := by
  unfold commitMatch
  simp [updConn_sessions]

theorem commitMatch_availableWorkers (s : SessionId) (c w : SockId)
    (cfg : Option Nat) (st : GState) :
    (commitMatch s c w cfg st).availableWorkers = st.availableWorkers := by
  unfold commitMatch
  simp [updConn_availableWorkers]

theorem commitMatch_waitingClients (s : SessionId) (c w : SockId)
    (cfg : Option Nat) (st : GState) :
    (commitMatch s c w cfg st).waitingClients = st.waitingClients := by
  unfold commitMatch
  simp [updConn_waitingClients]

theorem commitMatch_pendingReclaims (s : SessionId) (c w : SockId)
    (cfg : Option Nat) (st : GState) :
    (commitMatch s c w cfg st).pendingReclaims = st.pendingReclaims := by
  unfold commitMatch
  simp [updConn_pendingReclaims]

theorem commitMatch_outputs (s : SessionId) (c w : SockId)
    (cfg : Option Nat) (st : GState) :
    (commitMatch s c w cfg st).outputs =
      st.outputs ++ [(w, Msg.startSession cfg), (c, Msg.sessionStarted s)] := by
  unfold commitMatch
  simp [updConn_outputs]

theorem commitMatch_worker (s : SessionId) (c w : SockId) (cfg : Option Nat)
    (st : GState) (h : (mget st.connections w).isSome) :
    ∃ d, mget (commitMatch s c w cfg st).connections w = some d ∧
      d.status = some WStatus.busy ∧ d.sessionId = some s := by
  unfold commitMatch
  have h2 : (mget (updConn st c
      (fun c0 => { c0 with sessionId := some s })).connections w).isSome :=
    updConn_isSome st c w _ h
  obtain ⟨d0, hd0⟩ := Option.isSome_iff_exists.mp h2
  refine ⟨{ d0 with sessionId := some s, status := some WStatus.busy }, ?_, rfl, rfl⟩
  simpa using mget_updConn_self _ w _ d0 hd0

theorem commitMatch_preserve_status (s : SessionId) (c w x : SockId)
    (cfg : Option Nat) (st : GState) (d : Conn)
    (hx : mget st.connections x = some d) (hxw : x ≠ w) :
    ∃ d2, mget (commitMatch s c w cfg st).connections x = some d2 ∧
      d2.status = d.status := by
  unfold commitMatch
  by_cases hxc : x = c
  · subst hxc
    refine ⟨{ d with sessionId := some s }, ?_, rfl⟩
    have h1 := mget_updConn_self st x (fun c0 => { c0 with sessionId := some s }) d hx
    simpa [mget_updConn_ne _ w x _ hxw] using h1
  · refine ⟨d, ?_, rfl⟩
    simpa [mget_updConn_ne _ w x _ hxw, mget_updConn_ne _ c x _ hxc] using hx

theorem match_availableWorkers (s : SessionId) (c w : SockId) (cfg : Option Nat)
    (st : GState) :
    (matchClientWithWorker s c w cfg st).availableWorkers = st.availableWorkers := by
  unfold matchClientWithWorker
  by_cases hw1 : (mget (ensureClient c st).connections w).isSome
  · simp only [hw1, if_true]
    rw [commitMatch_availableWorkers, ensureClient_availableWorkers]
  · simp only [hw1, if_false]
    exact ensureClient_availableWorkers c st

theorem match_waitingClients (s : SessionId) (c w : SockId) (cfg : Option Nat)
    (st : GState) :
    (matchClientWithWorker s c w cfg st).waitingClients = st.waitingClients := by
  unfold matchClientWithWorker
  by_cases hw1 : (mget (ensureClient c st).connections w).isSome
  · simp only [hw1, if_true]
    rw [commitMatch_waitingClients, ensureClient_waitingClients]
  · simp only [hw1, if_false]
    exact ensureClient_waitingClients c st

theorem match_pendingReclaims (s : SessionId) (c w : SockId) (cfg : Option Nat)
    (st : GState) :
    (matchClientWithWorker s c w cfg st).pendingReclaims = st.pendingReclaims := by
  unfold matchClientWithWorker
  by_cases hw1 : (mget (ensureClient c st).connections w).isSome
  · simp only [hw1, if_true]
    rw [commitMatch_pendingReclaims, ensureClient_pendingReclaims]
  · simp only [hw1, if_false]
    exact ensureClient_pendingReclaims c st

theorem match_sessions (s : SessionId) (c w : SockId) (cfg : Option Nat)
    (st : GState) (hw : (mget st.connections w).isSome) :
    (matchClientWithWorker s c w cfg st).sessions =
      mset st.sessions s { clientId := c, workerId := w } := by
  unfold matchClientWithWorker
  have hw1 := ensureClient_isSome c w st hw
  simp only [hw1, if_true]
  rw [commitMatch_sessions, ensureClient_sessions]

theorem match_outputs (s : SessionId) (c w : SockId) (cfg : Option Nat)
    (st : GState) (hw : (mget st.connections w).isSome) :
    (matchClientWithWorker s c w cfg st).outputs =
      st.outputs ++ [(w, Msg.startSession cfg), (c, Msg.sessionStarted s)] := by
  unfold matchClientWithWorker
  have hw1 := ensureClient_isSome c w st hw
  simp only [hw1, if_true]
  rw [commitMatch_outputs, ensureClient_outputs]

theorem match_worker (s : SessionId) (c w : SockId) (cfg : Option Nat)
    (st : GState) (hw : (mget st.connections w).isSome) :
    ∃ d, mget (matchClientWithWorker s c w cfg st).connections w = some d ∧
      d.status = some WStatus.busy ∧ d.sessionId = some s := by
  unfold matchClientWithWorker
  have hw1 := ensureClient_isSome c w st hw
  simp only [hw1, if_true]
  exact commitMatch_worker s c w cfg _ hw1

theorem match_preserve_status (s : SessionId) (c w x : SockId) (cfg : Option Nat)
    (st : GState) (d : Conn)
    (hx : mget st.connections x = some d) (hxw : x ≠ w) :
    ∃ d2, mget (matchClientWithWorker s c w cfg st).connections x = some d2 ∧
      d2.status = d.status := by
  unfold matchClientWithWorker
  have hx1 : mget (ensureClient c st).connections x = some d := by
    rw [mget_ensureClient_of_isSome c x st (by simp [hx])]
    exact hx
  by_cases hw1 : (mget (ensureClient c st).connections w).isSome
  · simp only [hw1, if_true]
    exact commitMatch_preserve_status s c w x cfg _ d hx1 hxw
  · simp only [hw1, if_false]
    exact ⟨d, hx1, rfl⟩

/-! ### Characterization of the pool scan -/

theorem isIdleEntry_true_iff (conns : List (SockId × Conn)) (w : SockId) :
    isIdleEntry conns w = true ↔
      ∃ c, mget conns w = some c ∧ c.status = some WStatus.idle := by
  unfold isIdleEntry
  cases hm : mget conns w with
  | none => simp
  | some c => simp

theorem takeProvider_none (conns : List (SockId × Conn)) (l : List SockId)
    (h : (takeProvider conns l).1 = none) :
    (takeProvider conns l).2 = [] ∧ ∀ w ∈ l, isIdleEntry conns w = false := by
  induction l with
  | nil => simp [takeProvider]
  | cons hd tl ih =>
    cases hm : mget conns hd with
    | none =>
      have hred : takeProvider conns (hd :: tl) = takeProvider conns tl := by
        simp [takeProvider, hm]
      rw [hred] at h ⊢
      obtain ⟨h1, h2⟩ := ih h
      refine ⟨h1, ?_⟩
      intro w hw
      rcases List.mem_cons.mp hw with hw | hw
      · subst hw
        simp [isIdleEntry, hm]
      · exact h2 w hw
    | some c =>
      by_cases hs : c.status = some WStatus.idle
      · have hred : takeProvider conns (hd :: tl) = (some hd, tl) := by
          simp [takeProvider, hm, hs]
        rw [hred] at h
        simp at h
      · have hred : takeProvider conns (hd :: tl) = takeProvider conns tl := by
          simp [takeProvider, hm, hs]
        rw [hred] at h ⊢
        obtain ⟨h1, h2⟩ := ih h
        refine ⟨h1, ?_⟩
        intro w hw
        rcases List.mem_cons.mp hw with hw | hw
        · subst hw
          simp [isIdleEntry, hm, hs]
        · exact h2 w hw

theorem takeProvider_some (conns : List (SockId × Conn)) (l : List SockId)
    (w : SockId) (rest : List SockId)
    (h : takeProvider conns l = (some w, rest)) :
    ∃ pre, l = pre ++ w :: rest ∧ (∀ x ∈ pre, isIdleEntry conns x = false) ∧
      isIdleEntry conns w = true := by
  induction l with
  | nil => simp [takeProvider] at h
  | cons hd tl ih =>
    cases hm : mget conns hd with
    | none =>
      have hred : takeProvider conns (hd :: tl) = takeProvider conns tl := by
        simp [takeProvider, hm]
      rw [hred] at h
      obtain ⟨pre, h1, h2, h3⟩ := ih h
      refine ⟨hd :: pre, by simp [h1], ?_, h3⟩
      intro x hx
      rcases List.mem_cons.mp hx with hx | hx
      · subst hx
        simp [isIdleEntry, hm]
      · exact h2 x hx
    | some c =>
      by_cases hs : c.status = some WStatus.idle
      · have hred : takeProvider conns (hd :: tl) = (some hd, tl) := by
          simp [takeProvider, hm, hs]
        rw [hred] at h
        simp only [Prod.mk.injEq, Option.some.injEq] at h
        obtain ⟨rfl, rfl⟩ := h
        refine ⟨[], rfl, ?_, by simp [isIdleEntry, hm, hs]⟩
        intro x hx
        simp at hx
      · have hred : takeProvider conns (hd :: tl) = takeProvider conns tl := by
          simp [takeProvider, hm, hs]
        rw [hred] at h
        obtain ⟨pre, h1, h2, h3⟩ := ih h
        refine ⟨hd :: pre, by simp [h1], ?_, h3⟩
        intro x hx
        rcases List.mem_cons.mp hx with hx | hx
        · subst hx
          simp [isIdleEntry, hm, hs]
        · exact h2 x hx

theorem takeProvider_some_idle (conns : List (SockId × Conn)) (l : List SockId)
    (w : SockId) (rest : List SockId)
    (h : takeProvider conns l = (some w, rest)) :
    ∃ c, mget conns w = some c ∧ c.status = some WStatus.idle := by
  obtain ⟨_, _, _, h3⟩ := takeProvider_some conns l w rest h
  exact (isIdleEntry_true_iff conns w).mp h3

/-! ### Projection lemmas for the relay and disconnect handlers -/

theorem handleSignal_connections (sid : SockId) (p : Nat) (st : GState) :
    (handleSignal sid p st).connections = st.connections := by
  unfold handleSignal
  cases hm : mget st.connections sid with
  | none => simp [hm]
  | some conn =>
    cases hs : conn.sessionId with
    | none => simp [hm, hs]
    | some sessId =>
      cases hg : mget st.sessions sessId with
      | none => simp [hm, hs, hg]
      | some sess => simp [hm, hs, hg]

theorem handleSignal_sessions (sid : SockId) (p : Nat) (st : GState) :
    (handleSignal sid p st).sessions = st.sessions := by
  unfold handleSignal
  cases hm : mget st.connections sid with
  | none => simp [hm]
  | some conn =>
    cases hs : conn.sessionId with
    | none => simp [hm, hs]
    | some sessId =>
      cases hg : mget st.sessions sessId with
      | none => simp [hm, hs, hg]
      | some sess => simp [hm, hs, hg]

theorem handleBrowserEvent_connections (sid : SockId) (p : Nat) (st : GState) :
    (handleBrowserEvent sid p st).connections = st.connections := by
  unfold handleBrowserEvent
  cases hm : mget st.connections sid with
  | none => simp [hm]
  | some conn =>
    cases hs : conn.sessionId with
    | none => simp [hm, hs]
    | some sessId =>
      cases hg : mget st.sessions sessId with
      | none => simp [hm, hs, hg]
      | some sess =>
        by_cases hr : conn.role = Role.client
        · simp [hm, hs, hg, hr]
        · simp [hm, hs, hg, hr]

theorem handleDisconnect_connections (x : SockId) (st : GState) :
    (handleDisconnect x st).connections =
      (match mget st.connections x with
       | none => st.connections
       | some _ => mdel st.connections x) := by
  unfold handleDisconnect
  cases hm : mget st.connections x with
  | none => simp [hm]
  | some conn =>
    by_cases hr : conn.role = Role.worker
    · cases hs : conn.sessionId with
      | none => simp [hm, hr, hs]
      | some sessId =>
        cases hg : mget st.sessions sessId with
        | none => simp [hm, hr, hs, hg]
        | some sess => simp [hm, hr, hs, hg]
    · cases hs : conn.sessionId with
      | none => simp [hm, hr, hs]
      | some sessId =>
        cases hg : mget st.sessions sessId with
        | none => simp [hm, hr, hs, hg]
        | some sess => simp [hm, hr, hs, hg]

/-! ### Additional handleDisconnect helper for the bound-client path -/

theorem handleDisconnect_client_bound (r : SockId) (st : GState) (cr : Conn)
    (s : SessionId) (sess : Sess)
    (hr : mget st.connections r = some cr)
    (hrole : cr.role = Role.client)
    (hsid : cr.sessionId = some s)
    (hs : mget st.sessions s = some sess) :
    (handleDisconnect r st).outputs = st.outputs ++ [(sess.workerId, Msg.stopSession)] ∧
    (handleDisconnect r st).pendingReclaims = st.pendingReclaims ++ [sess.workerId] ∧
    (handleDisconnect r st).sessions = mdel st.sessions s := by
  unfold handleDisconnect
  simp [hr, hrole, hsid, hs]

/-! ### Concrete states used by the claim theorems and witnesses -/

/-- A state holding only one registered requester (id 1); provider id 2
does not resolve in the Registry. -/
def stLoneClient : GState :=
  { connections := [(1, { role := Role.client })],
    sessions := [], waitingClients := [], availableWorkers := [],
    pendingReclaims := [], outputs := [] }

/-- A state with one live session 100 binding requester 1 to provider 2. -/
def stPaired : GState :=
  { connections :=
      [(2, { role := Role.worker, status := some WStatus.busy, sessionId := some 100 }),
       (1, { role := Role.client, sessionId := some 100 })],
    sessions := [(100, { clientId := 1, workerId := 2 })],
    waitingClients := [], availableWorkers := [], pendingReclaims := [], outputs := [] }

/-- Like `stPaired` but with a second, idle provider 3 offered in the Pool. -/
def stRebind : GState :=
  { connections :=
      [(2, { role := Role.worker, status := some WStatus.busy, sessionId := some 100 }),
       (1, { role := Role.client, sessionId := some 100 }),
       (3, { role := Role.worker, status := some WStatus.idle })],
    sessions := [(100, { clientId := 1, workerId := 2 })],
    waitingClients := [], availableWorkers := [3], pendingReclaims := [], outputs := [] }

/-- A state with requester 7 waiting in the Requester Queue and no providers. -/
def stQueued : GState :=
  { connections := [(7, { role := Role.client })],
    sessions := [], waitingClients := [7], availableWorkers := [],
    pendingReclaims := [], outputs := [] }

/-! ### Claim theorems -/

/-- C1: the claim (and the spec) demand that when the provider id no
longer resolves in the Registry at commit time the requester is re-queued
onto the Requester Queue.  gateway.js (line 177-180) instead logs and
returns from `matchClientWithWorker`, dropping the requester — the spec's
own section 9 records this divergence as a bug in the source.  This
theorem evaluates the code at the failing input: requester 1 registered,
provider 2 absent from the Registry; the pairing aborts with no session
created and the Requester Queue stays empty (the requester is not
re-queued, and it receives no notification). -/
theorem C1_pairing_race_drops_requester :
    matchClientWithWorker 0 1 2 none stLoneClient = stLoneClient ∧
    (matchClientWithWorker 0 1 2 none stLoneClient).waitingClients = [] ∧
    (matchClientWithWorker 0 1 2 none stLoneClient).sessions = [] := by
  decide

/-- C2 counterexample: the claimed invariant (`sessionId` set iff the id
appears in exactly one live Session Table entry, after any broker
operation) is violated right after disconnect handling.  Concretely:
provider 2 registers, requester 1 requests and is paired (session 100),
then requester 1 disconnects.  The disconnect handler deletes session 100
immediately but leaves provider 2's registry entry untouched — its
`sessionId` is still `some 100` while it appears in zero live entries. -/
theorem C2_invariant_broken_after_disconnect :
    ¬ sessionInvariant (run [Event.evRegisterWorker 100 2,
      Event.evRequestSession 100 1 none, Event.evDisconnect 1] initState) := by
  decide

/-- C2 amended: the invariant does not survive disconnect handling.  When
a requester bound to live session `s` disconnects, `s` is deleted from
the Session Table while every surviving connection's registry entry is
untouched; in particular the bound provider keeps its set `sessionId`
although it now appears in no live Session Table entry (it is only
cleared when the reclaim timer fires, or overwritten by a re-match). -/
theorem C2_reclaim_window_violation
    (st : GState) (r w : SockId) (s : SessionId) (cr cw : Conn) (sess : Sess)
    (hr : mget st.connections r = some cr)
    (hrole : cr.role = Role.client)
    (hsid : cr.sessionId = some s)
    (hs : mget st.sessions s = some sess)
    (hnd : (st.sessions.map Prod.fst).Nodup)
    (hw : mget st.connections w = some cw)
    (hwr : w ≠ r)
    (hcw : cw.sessionId.isSome = true) :
    mget (handleDisconnect r st).connections w = some cw ∧
    cw.sessionId.isSome = true ∧
    mget (handleDisconnect r st).sessions s = none := by
  refine ⟨?_, hcw, ?_⟩
  · rw [handleDisconnect_connections]
    simp only [hr]
    exact (mget_mdel_ne st.connections r w hwr).trans hw
  · have hsess := (handleDisconnect_client_bound r st cr s sess hr hrole hsid hs).2.2
    rw [hsess]
    exact mget_mdel_self st.sessions s hnd

/-- C2 witness: the amended statement applied to the concrete paired
state: requester 1 disconnects, provider 2 keeps `sessionId = 100`, and
session 100 is gone from the Session Table. -/
theorem C2_reclaim_window_violation_witness :
    mget (handleDisconnect 1 stPaired).connections 2 =
      some { role := Role.worker, status := some WStatus.busy, sessionId := some 100 } ∧
    (some 100 : Option SessionId).isSome = true ∧
    mget (handleDisconnect 1 stPaired).sessions 100 = none :=
  C2_reclaim_window_violation stPaired 1 2 100
    { role := Role.client, sessionId := some 100 }
    { role := Role.worker, status := some WStatus.busy, sessionId := some 100 }
    { clientId := 1, workerId := 2 }
    (by decide) rfl rfl (by decide) (by decide) (by decide) (by decide) rfl

/-- C3: the claim (and the frontend, whose `terminateSession` emits
`stop-session` to the gateway) expect an explicit stop signal from the
requester to delete the session and notify the provider.  gateway.js
registers no handler for a peer-sent `stop-session`, so socket.io
discards the event: evaluated at a live session (requester 1, provider 2,
session 100), the stop event leaves the whole broker state unchanged —
the session stays in the Session Table and the provider receives
nothing. -/
theorem C3_stop_signal_ignored :
    step (Event.evStopSession 1) stPaired = stPaired ∧
    mget (step (Event.evStopSession 1) stPaired).sessions 100 =
      some { clientId := 1, workerId := 2 } ∧
    (step (Event.evStopSession 1) stPaired).outputs = [] := by
  decide

/-- C4 counterexample: provider registration is not idempotent.  In the
paired state, provider 2 is busy with `sessionId = 100`; re-sending
`register-worker` overwrites its registry entry with a fresh idle one
(clearing the `sessionId`, resetting `busy`) and pushes id 2 onto the
Pool although its session 100 is still live. -/
theorem C4_worker_reregistration_overwrites :
    mget stPaired.connections 2 =
      some { role := Role.worker, status := some WStatus.busy, sessionId := some 100 } ∧
    mget (registerWorker 101 2 stPaired).connections 2 =
      some { role := Role.worker, status := some WStatus.idle, sessionId := none } ∧
    stPaired.availableWorkers = [] ∧
    (registerWorker 101 2 stPaired).availableWorkers = [2] ∧
    mget (registerWorker 101 2 stPaired).sessions 100 =
      some { clientId := 1, workerId := 2 } := by
  decide

/-- C4 amended: registration is idempotent for requesters only —
`register-client` on a present id is a strict no-op.  Provider
registration is not: `register-worker` unconditionally overwrites the
Registry entry with a fresh idle one (dropping any `sessionId` and `busy`
status) and, when no requester is queued, appends the provider to the
Pool again. -/
theorem C4_registration_idempotency :
    (∀ (st : GState) (cid : SockId), (mget st.connections cid).isSome = true →
      registerClient cid st = st) ∧
    (∀ (st : GState) (sid : SessionId) (wid : SockId), st.waitingClients = [] →
      registerWorker sid wid st =
        { st with
          connections := mset st.connections wid
            { role := Role.worker, status := some WStatus.idle },
          availableWorkers := st.availableWorkers ++ [wid] }) := by
  constructor
  · intro st cid h
    unfold registerClient ensureClient
    simp [h]
  · intro st sid wid h
    unfold registerWorker
    simp [h]

/-- C4 witness: the amended statement at concrete inputs — re-registering
present requester 1 is a no-op on the paired state, and registering
worker 9 on the empty-queue lone-client state yields exactly the
overwrite-and-pool-append state. -/
theorem C4_registration_idempotency_witness :
    registerClient 1 stPaired = stPaired ∧
    registerWorker 5 9 stLoneClient =
      { stLoneClient with
        connections := mset stLoneClient.connections 9
          { role := Role.worker, status := some WStatus.idle },
        availableWorkers := stLoneClient.availableWorkers ++ [9] } :=
  ⟨C4_registration_idempotency.1 stPaired 1 (by decide),
   C4_registration_idempotency.2 stLoneClient 5 9 (by decide)⟩

/-- C5 counterexample: the broker checks neither existing bindings nor
distinctness when creating a session.  (a) Double binding: provider 2
registers, requester 1 is paired with it (session 100); provider 3
registers; requester 1 issues `request-session` again and is paired with
provider 3 (session 102) while session 100 is still live — connection 1
appears in two live Session Table entries.  (b) Self-pairing: socket 4
registers as a worker (idle, offered to the Pool) and then itself emits
`request-session`; the pool scan returns its own id and
`matchClientWithWorker` pairs it with itself — session 101 is created
with requester id and provider id both 4, so the two bound connections
of a session need not be distinct. -/
theorem C5_double_binding_and_self_pairing :
    mget (run [Event.evRegisterWorker 100 2, Event.evRequestSession 100 1 none,
      Event.evRegisterWorker 101 3, Event.evRequestSession 102 1 none]
      initState).sessions 100 = some { clientId := 1, workerId := 2 } ∧
    mget (run [Event.evRegisterWorker 100 2, Event.evRequestSession 100 1 none,
      Event.evRegisterWorker 101 3, Event.evRequestSession 102 1 none]
      initState).sessions 102 = some { clientId := 1, workerId := 3 } ∧
    liveCount (run [Event.evRegisterWorker 100 2, Event.evRequestSession 100 1 none,
      Event.evRegisterWorker 101 3, Event.evRequestSession 102 1 none]
      initState) 1 = 2 ∧
    mget (run [Event.evRegisterWorker 100 4, Event.evRequestSession 101 4 none]
      initState).sessions 101 = some { clientId := 4, workerId := 4 } := by
  decide

/-- C5 amended: every session is created with exactly one requester slot
and one provider slot, and the provider drawn from the Pool has Registry
status `idle` at selection time; but the broker enforces neither of the
original claim's side conditions.  It performs no binding check — a
requester already bound to live session `s0` that issues
`request-session` while an idle provider is available is paired into a
fresh session `s1` with both `s0` and `s1` live afterwards — and no
distinctness check: when the pool scan returns the requesting
connection's own id (a pool-listed idle worker issuing
`request-session`), the session binds that connection to itself. -/
theorem C5_session_creation :
    (∀ (conns : List (SockId × Conn)) (l : List SockId) (w : SockId)
       (rest : List SockId),
      takeProvider conns l = (some w, rest) →
      ∃ c, mget conns w = some c ∧ c.status = some WStatus.idle) ∧
    (∀ (st : GState) (r : SockId) (s0 s1 : SessionId) (cfg : Option Nat)
       (cr : Conn) (sess0 : Sess) (w : SockId) (rest : List SockId),
      mget st.connections r = some cr →
      cr.sessionId = some s0 →
      mget st.sessions s0 = some sess0 →
      takeProvider st.connections st.availableWorkers = (some w, rest) →
      s1 ≠ s0 →
      mget (requestSession s1 r cfg st).sessions s0 = some sess0 ∧
      mget (requestSession s1 r cfg st).sessions s1 =
        some { clientId := r, workerId := w }) ∧
    (∀ (st : GState) (r : SockId) (s1 : SessionId) (cfg : Option Nat)
       (rest : List SockId),
      takeProvider st.connections st.availableWorkers = (some r, rest) →
      mget (requestSession s1 r cfg st).sessions s1 =
        some { clientId := r, workerId := r }) := by
  refine ⟨?_, ?_, ?_⟩
  · exact fun conns l w rest h => takeProvider_some_idle conns l w rest h
  · intro st r s0 s1 cfg cr sess0 w rest hr hsid hs0 htake hne
    have hrs : (mget st.connections r).isSome := by simp [hr]
    have he : ensureClient r st = st := by
      unfold ensureClient
      simp [hrs]
    unfold requestSession
    simp only [he, htake]
    have hw : (mget ({ st with availableWorkers := rest } : GState).connections w).isSome := by
      obtain ⟨c, hc, _⟩ := takeProvider_some_idle _ _ _ _ htake
      simp [show mget st.connections w = some c from hc]
    rw [match_sessions s1 r w cfg _ hw]
    constructor
    · rw [mget_mset_ne _ s1 s0 _ (fun h2 => hne h2.symm)]
      exact hs0
    · exact mget_mset_self _ s1 _
  · intro st r s1 cfg rest htake
    obtain ⟨c, hc, _⟩ := takeProvider_some_idle _ _ _ _ htake
    have hrs : (mget st.connections r).isSome := by simp [hc]
    have he : ensureClient r st = st := by
      unfold ensureClient
      simp [hrs]
    unfold requestSession
    simp only [he, htake]
    have hw : (mget ({ st with availableWorkers := rest } : GState).connections r).isSome := by
      simp [show mget st.connections r = some c from hc]
    rw [match_sessions s1 r r cfg _ hw]
    exact mget_mset_self _ s1 _

/-- A state in which socket 4 is registered as an idle worker and sits
in the Pool — the configuration from which its own `request-session`
self-pairs it. -/
def stSelf : GState :=
  { connections := [(4, { role := Role.worker, status := some WStatus.idle })],
    sessions := [], waitingClients := [], availableWorkers := [4],
    pendingReclaims := [], outputs := [] }

/-- C5 witness: the amended statement at concrete inputs.  Double
binding: requester 1 is bound to live session 100 with provider 2,
provider 3 is idle in the Pool, and a second `request-session` from 1
creates session 102 with provider 3 while session 100 stays live.
Self-pairing: idle pool worker 4 issuing `request-session` yields
session 7 binding 4 to itself. -/
theorem C5_session_creation_witness :
    (mget (requestSession 102 1 none stRebind).sessions 100 =
       some { clientId := 1, workerId := 2 } ∧
     mget (requestSession 102 1 none stRebind).sessions 102 =
       some { clientId := 1, workerId := 3 }) ∧
    mget (requestSession 7 4 none stSelf).sessions 7 =
      some { clientId := 4, workerId := 4 } :=
  ⟨C5_session_creation.2.1 stRebind 1 100 102 none
      { role := Role.client, sessionId := some 100 }
      { clientId := 1, workerId := 2 } 3 []
      (by decide) rfl (by decide) (by decide) (by decide),
   C5_session_creation.2.2 stSelf 4 7 none [] (by decide)⟩

/-- C6: delayed reclaim, exactly as the code does it.  (a) When a
requester bound to live session `s` disconnects, `s` is deleted from the
Session Table immediately, the bound provider is sent `stop-session`,
and a reclaim timer carrying the provider id is scheduled.  (b) When the
timer fires and the provider is still in the Registry, its status is
reset to `idle`, its `sessionId` is cleared and it is appended to the
Pool tail.  (c) When the timer fires and the provider has disconnected,
nothing happens beyond discharging the timer — no re-admission. -/
theorem C6_delayed_reclaim :
    (∀ (st : GState) (r : SockId) (cr : Conn) (s : SessionId) (sess : Sess),
      mget st.connections r = some cr →
      cr.role = Role.client →
      cr.sessionId = some s →
      mget st.sessions s = some sess →
      (st.sessions.map Prod.fst).Nodup →
      mget (handleDisconnect r st).sessions s = none ∧
      (handleDisconnect r st).outputs = st.outputs ++ [(sess.workerId, Msg.stopSession)] ∧
      (handleDisconnect r st).pendingReclaims = st.pendingReclaims ++ [sess.workerId]) ∧
    (∀ (st : GState) (w : SockId) (cw : Conn),
      mget st.connections w = some cw →
      mget (fireReclaim w st).connections w =
        some { cw with status := some WStatus.idle, sessionId := none } ∧
      (fireReclaim w st).availableWorkers = st.availableWorkers ++ [w]) ∧
    (∀ (st : GState) (w : SockId),
      mget st.connections w = none →
      fireReclaim w st = { st with pendingReclaims := st.pendingReclaims.erase w }) := by
  refine ⟨?_, ?_, ?_⟩
  · intro st r cr s sess hr hrole hsid hs hnd
    obtain ⟨ho, hp, hsess⟩ := handleDisconnect_client_bound r st cr s sess hr hrole hsid hs
    refine ⟨?_, ho, hp⟩
    rw [hsess]
    exact mget_mdel_self st.sessions s hnd
  · intro st w cw hw
    unfold fireReclaim
    have hw1 : mget ({ st with pendingReclaims := st.pendingReclaims.erase w } : GState).connections w = some cw := hw
    have hsome : (mget ({ st with pendingReclaims := st.pendingReclaims.erase w } : GState).connections w).isSome := by
      simp [hw1]
    simp only [hsome, if_true]
    refine ⟨?_, ?_⟩
    · exact mget_updConn_self _ w _ cw hw1
    · rw [updConn_availableWorkers]
  · intro st w hw
    unfold fireReclaim
    simp [hw]

/-- C6 witness: disconnect of bound requester 1 in the paired state, a
timer fire with provider 2 still registered, and a timer fire with the
provider absent. -/
theorem C6_delayed_reclaim_witness :
    (mget (handleDisconnect 1 stPaired).sessions 100 = none ∧
     (handleDisconnect 1 stPaired).outputs = stPaired.outputs ++ [(2, Msg.stopSession)] ∧
     (handleDisconnect 1 stPaired).pendingReclaims = stPaired.pendingReclaims ++ [2]) ∧
    (mget (fireReclaim 2 stPaired).connections 2 =
       some { role := Role.worker, status := some WStatus.idle, sessionId := none } ∧
     (fireReclaim 2 stPaired).availableWorkers = stPaired.availableWorkers ++ [2]) ∧
    fireReclaim 2 stLoneClient =
      { stLoneClient with pendingReclaims := stLoneClient.pendingReclaims.erase 2 } :=
  ⟨C6_delayed_reclaim.1 stPaired 1 { role := Role.client, sessionId := some 100 } 100
      { clientId := 1, workerId := 2 } (by decide) rfl rfl (by decide) (by decide),
   C6_delayed_reclaim.2.1 stPaired 2
      { role := Role.worker, status := some WStatus.busy, sessionId := some 100 } (by decide),
   C6_delayed_reclaim.2.2 stLoneClient 2 (by decide)⟩

/-- C7: FIFO matching on both sides, plus the full characterization of
the pool scan.  (a) Providers 11, 12 register in that order with no
requesters present; requesters 21, 22 then request in that order; 21 is
paired with 11 (session 102) and 22 with 12 (session 103).  (b) When the
scan returns empty, the Pool has been exhausted and no scanned entry was
present-and-idle.  (c) When the scan returns a provider, it is the first
present-and-idle entry from the head: everything before it was stale and
is discarded, and the scan position after it is preserved. -/
theorem C7_fifo_matching :
    (mget (run [Event.evRegisterWorker 100 11, Event.evRegisterWorker 101 12,
        Event.evRequestSession 102 21 none, Event.evRequestSession 103 22 none]
        initState).sessions 102 = some { clientId := 21, workerId := 11 } ∧
     mget (run [Event.evRegisterWorker 100 11, Event.evRegisterWorker 101 12,
        Event.evRequestSession 102 21 none, Event.evRequestSession 103 22 none]
        initState).sessions 103 = some { clientId := 22, workerId := 12 }) ∧
    (∀ (conns : List (SockId × Conn)) (l : List SockId),
      (takeProvider conns l).1 = none →
      (takeProvider conns l).2 = [] ∧ ∀ w ∈ l, isIdleEntry conns w = false) ∧
    (∀ (conns : List (SockId × Conn)) (l : List SockId) (w : SockId)
       (rest : List SockId),
      takeProvider conns l = (some w, rest) →
      ∃ pre, l = pre ++ w :: rest ∧ (∀ x ∈ pre, isIdleEntry conns x = false) ∧
        isIdleEntry conns w = true) := by
  exact ⟨by decide, takeProvider_none, takeProvider_some⟩

/-- A one-provider registry used to exercise the pool scan concretely:
id 3 is a registered idle worker, id 5 resolves to nothing. -/
def poolConns : List (SockId × Conn) :=
  [(3, { role := Role.worker, status := some WStatus.idle })]

/-- C7 witness: the scan characterization applied to the pool `[5, 3]`
over `poolConns` — the stale head 5 is discarded and the idle worker 3
is returned. -/
theorem C7_fifo_matching_witness :
    ∃ pre, [5, 3] = pre ++ 3 :: ([] : List SockId) ∧
      (∀ x ∈ pre, isIdleEntry poolConns x = false) ∧
      isIdleEntry poolConns 3 = true :=
  C7_fifo_matching.2.2 poolConns [5, 3] 3 [] (by decide)

/-- C8: pool bypass on provider registration.  (a) When the Requester
Queue is non-empty, the registering provider is paired with the head
requester immediately: the Pool is left exactly as it was (the provider
is never added to it), the head requester is dequeued, a session binding
the two is inserted, the provider ends up busy with that session id, and
the begin/established notifications are emitted.  (b) When the queue is
empty, the provider is appended to the Pool tail and no session is
created. -/
theorem C8_bypass_pool :
    (∀ (st : GState) (sid : SessionId) (w c : SockId) (rest : List SockId),
      st.waitingClients = c :: rest →
      (registerWorker sid w st).availableWorkers = st.availableWorkers ∧
      (registerWorker sid w st).waitingClients = rest ∧
      mget (registerWorker sid w st).sessions sid =
        some { clientId := c, workerId := w } ∧
      (∃ d, mget (registerWorker sid w st).connections w = some d ∧
        d.status = some WStatus.busy ∧ d.sessionId = some sid) ∧
      (registerWorker sid w st).outputs =
        st.outputs ++ [(w, Msg.startSession none), (c, Msg.sessionStarted sid)]) ∧
    (∀ (st : GState) (sid : SessionId) (w : SockId),
      st.waitingClients = [] →
      (registerWorker sid w st).availableWorkers = st.availableWorkers ++ [w] ∧
      (registerWorker sid w st).sessions = st.sessions) := by
  constructor
  · intro st sid w c rest hq
    unfold registerWorker
    simp only [hq]
    have hw : (mget (mset st.connections w
        { role := Role.worker, status := some WStatus.idle }) w).isSome := by
      simp [mget_mset_self]
    refine ⟨?_, ?_, ?_, ?_, ?_⟩
    · rw [match_availableWorkers]
    · rw [match_waitingClients]
    · rw [match_sessions sid c w none _ hw]
      exact mget_mset_self _ sid _
    · exact match_worker sid c w none _ hw
    · rw [match_outputs sid c w none _ hw]
  · intro st sid w hq
    unfold registerWorker
    simp [hq]

/-- C8 witness: provider 9 registering while requester 7 waits pairs the
two into session 50 with the Pool untouched; provider 9 registering on
the empty-queue state is appended to the Pool with no session created. -/
theorem C8_bypass_pool_witness :
    ((registerWorker 50 9 stQueued).availableWorkers = stQueued.availableWorkers ∧
     (registerWorker 50 9 stQueued).waitingClients = [] ∧
     mget (registerWorker 50 9 stQueued).sessions 50 =
       some { clientId := 7, workerId := 9 } ∧
     (∃ d, mget (registerWorker 50 9 stQueued).connections 9 = some d ∧
       d.status = some WStatus.busy ∧ d.sessionId = some 50) ∧
     (registerWorker 50 9 stQueued).outputs =
       stQueued.outputs ++ [(9, Msg.startSession none), (7, Msg.sessionStarted 50)]) ∧
    ((registerWorker 60 9 stLoneClient).availableWorkers =
       stLoneClient.availableWorkers ++ [9] ∧
     (registerWorker 60 9 stLoneClient).sessions = stLoneClient.sessions) :=
  ⟨C8_bypass_pool.1 stQueued 50 9 7 [] rfl,
   C8_bypass_pool.2 stLoneClient 60 9 rfl⟩

/-- C9: relay events are silently dropped whenever the sender's registry
entry is absent, its `sessionId` is unset, or the `sessionId` does not
resolve in the Session Table: both relay handlers return the state
unchanged — nothing is forwarded, no error is sent, and Registry, Pool,
Queue and Session Table are untouched. -/
theorem C9_relay_silent_drop :
    ∀ (st : GState) (sid : SockId) (p : Nat),
      (mget st.connections sid = none ∨
        (∃ c, mget st.connections sid = some c ∧ c.sessionId = none) ∨
        (∃ c s2, mget st.connections sid = some c ∧ c.sessionId = some s2 ∧
          mget st.sessions s2 = none)) →
      handleSignal sid p st = st ∧ handleBrowserEvent sid p st = st := by
  intro st sid p h
  rcases h with h | ⟨c, hc, hs⟩ | ⟨c, s2, hc, hs, hg⟩
  · constructor
    · unfold handleSignal
      simp [h]
    · unfold handleBrowserEvent
      simp [h]
  · constructor
    · unfold handleSignal
      simp [hc, hs]
    · unfold handleBrowserEvent
      simp [hc, hs]
  · constructor
    · unfold handleSignal
      simp [hc, hs, hg]
    · unfold handleBrowserEvent
      simp [hc, hs, hg]

/-- C9 witness: a relay from unregistered sender 5 against the paired
state leaves the state unchanged on both channels. -/
theorem C9_relay_silent_drop_witness :
    handleSignal 5 0 stPaired = stPaired ∧
    handleBrowserEvent 5 0 stPaired = stPaired :=
  C9_relay_silent_drop stPaired 5 0 (Or.inl (by decide))

/-- C10 counterexample: the grace-window property fails if the provider
re-registers during the window.  Trace: provider 2 is paired with
requester 1 (session 100); requester 1 disconnects, scheduling a reclaim
for 2 (pending timer).  Before the timer fires, provider 2 re-sends
`register-worker`: its status is reset to `idle` and it is pushed onto
the Pool; a new requester 3 then requests and is paired with 2 (session
102) — all while the reclaim timer is still pending.  So during the
window the provider's status did not remain `busy`, and it both left the
Pool and was paired with a new requester. -/
theorem C10_window_reregistration :
    (run [Event.evRegisterWorker 100 2, Event.evRequestSession 100 1 none,
       Event.evDisconnect 1, Event.evRegisterWorker 101 2]
       initState).pendingReclaims = [2] ∧
    mget (run [Event.evRegisterWorker 100 2, Event.evRequestSession 100 1 none,
       Event.evDisconnect 1, Event.evRegisterWorker 101 2]
       initState).connections 2 =
      some { role := Role.worker, status := some WStatus.idle, sessionId := none } ∧
    (run [Event.evRegisterWorker 100 2, Event.evRequestSession 100 1 none,
       Event.evDisconnect 1, Event.evRegisterWorker 101 2,
       Event.evRequestSession 102 3 none] initState).pendingReclaims = [2] ∧
    mget (run [Event.evRegisterWorker 100 2, Event.evRequestSession 100 1 none,
       Event.evDisconnect 1, Event.evRegisterWorker 101 2,
       Event.evRequestSession 102 3 none] initState).sessions 102 =
      some { clientId := 3, workerId := 2 } ∧
    mget (run [Event.evRegisterWorker 100 2, Event.evRequestSession 100 1 none,
       Event.evDisconnect 1, Event.evRegisterWorker 101 2,
       Event.evRequestSession 102 3 none] initState).connections 2 =
      some { role := Role.worker, status := some WStatus.busy, sessionId := some 102 } := by
  decide

/-- C10 amended: during the grace window the former provider's status
remains `busy` — and hence it can be neither returned by the pool scan
nor paired with a new requester — provided the provider itself does not
re-register in the window.  (a) Every broker event other than a
`register-worker` for this provider and its own reclaim-timer fire
either removes the provider from the Registry (its own disconnect) or
preserves its `busy` status.  (b) The pool scan never returns a provider
whose Registry status is `busy`. -/
theorem C10_grace_window :
    (∀ (e : Event) (st : GState) (w : SockId) (cw : Conn),
      mget st.connections w = some cw →
      cw.status = some WStatus.busy →
      (st.connections.map Prod.fst).Nodup →
      (∀ s, e ≠ Event.evRegisterWorker s w) →
      e ≠ Event.evReclaimTimer w →
      mget (step e st).connections w = none ∨
      ∃ d, mget (step e st).connections w = some d ∧ d.status = some WStatus.busy) ∧
    (∀ (conns : List (SockId × Conn)) (l : List SockId) (w : SockId)
       (rest : List SockId) (cw : Conn),
      mget conns w = some cw →
      cw.status = some WStatus.busy →
      takeProvider conns l ≠ (some w, rest)) := by
  constructor
  · intro e st w cw hw hb hnd hne1 hne2
    cases e with
    | evRegisterWorker s w1 =>
      have hww : w ≠ w1 := by
        intro he
        exact hne1 s (by rw [he])
      have hw1 : mget (mset st.connections w1
          { role := Role.worker, status := some WStatus.idle }) w = some cw := by
        rw [mget_mset_ne st.connections w1 w _ hww]
        exact hw
      right
      unfold step registerWorker
      cases hq : st.waitingClients with
      | nil =>
        simp only [hq]
        exact ⟨cw, hw1, hb⟩
      | cons c rest =>
        simp only [hq]
        obtain ⟨d2, hd2, hstat⟩ := match_preserve_status s c w1 w none
          { st with
            connections := mset st.connections w1
              { role := Role.worker, status := some WStatus.idle },
            waitingClients := rest } cw hw1 hww
        exact ⟨d2, hd2, hstat.trans hb⟩
    | evRegisterClient c =>
      right
      unfold step registerClient ensureClient
      by_cases hc : (mget st.connections c).isSome
      · simp [hc]
        exact ⟨cw, hw, hb⟩
      · have hcw : w ≠ c := by
          intro he
          rw [he] at hw
          exact hc (by simp [hw])
        simp [hc]
        refine ⟨cw, ?_, hb⟩
        rw [mget_mset_ne st.connections c w _ hcw]
        exact hw
    | evRequestSession s c cfg =>
      right
      unfold step requestSession
      have hw1 : mget (ensureClient c st).connections w = some cw := by
        rw [mget_ensureClient_of_isSome c w st (by simp [hw])]
        exact hw
      cases ht : takeProvider (ensureClient c st).connections
          (ensureClient c st).availableWorkers with
      | mk o rest =>
        cases o with
        | none =>
          simp only [ht]
          exact ⟨cw, hw1, hb⟩
        | some w1 =>
          have hww : w ≠ w1 := by
            intro he
            obtain ⟨cc, hcc, hccidle⟩ := takeProvider_some_idle _ _ _ _ ht
            rw [← he] at hcc
            rw [hw1] at hcc
            have hcweq := Option.some.inj hcc
            subst hcweq
            rw [hb] at hccidle
            exact absurd hccidle (by decide)
          simp only [ht]
          obtain ⟨d2, hd2, hstat⟩ := match_preserve_status s c w1 w cfg
            { ensureClient c st with availableWorkers := rest } cw hw1 hww
          exact ⟨d2, hd2, hstat.trans hb⟩
    | evSignal s p =>
      right
      unfold step
      refine ⟨cw, ?_, hb⟩
      rw [handleSignal_connections]
      exact hw
    | evBrowserEvent s p =>
      right
      unfold step
      refine ⟨cw, ?_, hb⟩
      rw [handleBrowserEvent_connections]
      exact hw
    | evDisconnect x =>
      unfold step
      by_cases hx : x = w
      · subst hx
        left
        rw [handleDisconnect_connections]
        simp only [hw]
        exact mget_mdel_self st.connections x hnd
      · right
        rw [handleDisconnect_connections]
        cases hmx : mget st.connections x with
        | none =>
          simp only [hmx]
          exact ⟨cw, hw, hb⟩
        | some cx =>
          simp only [hmx]
          refine ⟨cw, ?_, hb⟩
          rw [mget_mdel_ne st.connections x w (fun he => hx he.symm)]
          exact hw
    | evReclaimTimer w1 =>
      have hww : w ≠ w1 := by
        intro he
        exact hne2 (by rw [he])
      right
      unfold step fireReclaim
      by_cases hp : (mget st.connections w1).isSome
      · simp only [show (mget ({ st with
            pendingReclaims := st.pendingReclaims.erase w1 } : GState).connections
            w1).isSome = true from hp, if_true]
        refine ⟨cw, ?_, hb⟩
        rw [mget_updConn_ne _ w1 w _ hww]
        exact hw
      · simp only [show ¬ ((mget ({ st with
            pendingReclaims := st.pendingReclaims.erase w1 } : GState).connections
            w1).isSome = true) from hp, if_false]
        exact ⟨cw, hw, hb⟩
    | evStopSession s1 =>
      right
      exact ⟨cw, hw, hb⟩
  · intro conns l w rest cw hw hb h
    obtain ⟨c, hc, hcidle⟩ := takeProvider_some_idle conns l w rest h
    rw [hw] at hc
    have hcweq := Option.some.inj hc
    subst hcweq
    rw [hb] at hcidle
    exact absurd hcidle (by decide)

/-- C10 witness: the amended statement at the paired state — a relay
event leaves busy provider 2 busy, and the pool scan refuses to return
provider 2 from the pool `[2]` while it is busy. -/
theorem C10_grace_window_witness :
    (mget (step (Event.evSignal 1 0) stPaired).connections 2 = none ∨
      ∃ d, mget (step (Event.evSignal 1 0) stPaired).connections 2 = some d ∧
        d.status = some WStatus.busy) ∧
    takeProvider stPaired.connections [2] ≠ (some 2, []) :=
  ⟨C10_grace_window.1 (Event.evSignal 1 0) stPaired 2
      { role := Role.worker, status := some WStatus.busy, sessionId := some 100 }
      (by decide) rfl (by decide)
      (fun s h => Event.noConfusion h) (fun h => Event.noConfusion h),
   C10_grace_window.2 stPaired.connections [2] 2 []
      { role := Role.worker, status := some WStatus.busy, sessionId := some 100 }
      (by decide) rfl⟩

end VB
